import Mathlib

/-!
Shallow embedding of the offline-first synchronization subsystem of the
repository (source: `src/mobile/lib/offline.ts`).

Persisted storage (`AsyncStorage`) is modelled as an explicit record with one
field per storage key.  A persisted value is `absent` (key never written or
removed), `corrupt` (present but `JSON.parse` would throw), or `wellFormed v`
(present and parsing to the typed value `v`).  Clock readings (`Date.now()`),
random suffixes (`Math.random().toString(36).substr(2, 9)`), ISO timestamp
strings (`new Date().toISOString()`), storage-write outcomes, and network
responses are inputs to the operations, since the source obtains them from the
environment.  An operation that can reject (throw) returns an `OpResult`
carrying the final storage state, so that writes persisted before a throw are
visible in the error case exactly as in the source.
-/

namespace Kofa

/-- One persisted value under a storage key: missing, present but not valid
JSON (so `JSON.parse` throws), or present and well formed. -/
inductive Stored (α : Type) where
  | absent : Stored α
  | corrupt : Stored α
  | wellFormed (a : α) : Stored α
deriving DecidableEq

/-- Sale channel enum of `OfflineSale.channel`. -/
inductive Channel where
  | instagram
  | walkIn
  | whatsapp
  | other
deriving DecidableEq

/-- A cached product entry (the source stores `any[]`; only identity and
count are observed by this subsystem). -/
structure Product where
  id : String
  name : String
deriving DecidableEq

/-- An opaque structured payload, modelling the JS `payload: any` object as a
record of the fields this subsystem ever reads or writes. -/
structure Payload where
  product_name : Option String
  quantity : Option Nat
  amount_ngn : Option Nat
  channel : Option Channel
  notes : Option String
  product_id : Option String
deriving DecidableEq

/-- The four sync-queue action kinds of `SyncQueueItem.action`. -/
inductive SyncAction where
  | createSale
  | createOrder
  | updateStock
  | createExpense
deriving DecidableEq

/-- `SyncQueueItem` from the source. -/
structure SyncQueueItem where
  id : String
  action : SyncAction
  payload : Payload
  created_at : String
  retries : Nat
deriving DecidableEq

/-- `OfflineSale` from the source. -/
structure OfflineSale where
  id : String
  product_name : String
  quantity : Nat
  amount_ngn : Nat
  channel : Channel
  notes : Option String
  created_at : String
  synced : Bool
deriving DecidableEq

/-- The argument of `saveOfflineSale`: an `OfflineSale` without `id`,
`created_at`, `synced`. -/
structure SaleInput where
  product_name : String
  quantity : Nat
  amount_ngn : Nat
  channel : Channel
  notes : Option String
deriving DecidableEq

/-- The object persisted under the products-cache key:
`{ products, cached_at }`. -/
structure PCache where
  products : List Product
  cached_at : String
deriving DecidableEq

/-- The object persisted under the orders-cache key: `{ orders, cached_at }`
(order entries are opaque here). -/
structure OCache where
  orders : List String
  cached_at : String
deriving DecidableEq

/-- `SyncStatus` from the source. -/
structure SyncStatus where
  isOnline : Bool
  lastSyncAt : Option String
  pendingActions : Nat
  cachedProducts : Nat
deriving DecidableEq

/-- The summary returned by `processSyncQueue`. -/
structure Summary where
  synced : Nat
  failed : Nat
  remaining : Nat
deriving DecidableEq

/-- The persisted state: one field per `STORAGE_KEYS` entry.  The last-sync
value is stored and read as a raw string (never parsed), so it is only
present or absent. -/
structure Storage where
  productsCache : Stored PCache
  ordersCache : Stored OCache
  syncQueue : Stored (List SyncQueueItem)
  lastSync : Option String
  offlineSales : Stored (List OfflineSale)
deriving DecidableEq

/-- Result of an operation that can throw: `ok` returns a value, `err` models
a rejected promise.  Both carry the storage state after the operation, so
writes made before a throw persist. -/
inductive OpResult (α : Type) where
  | ok (a : α) (s : Storage) : OpResult α
  | err (s : Storage) : OpResult α
deriving DecidableEq

/-- The storage state after the operation, whether it returned or threw. -/
def OpResult.post : OpResult α → Storage
  | .ok _ s => s
  | .err s => s

/-- The returned value, when the operation did not throw. -/
def OpResult.val? : OpResult α → Option α
  | .ok a _ => some a
  | .err _ => none

/-- Whether the operation returned normally. -/
def OpResult.isOk : OpResult α → Bool
  | .ok _ _ => true
  | .err _ => false

/-- Storage with no key ever written. -/
def initStorage : Storage :=
  ⟨.absent, .absent, .absent, none, .absent⟩

/-- The well-formed list under a key, with absent or corrupt read as `[]`
(the `queue ? JSON.parse(queue) : []` / catch-to-`[]` pattern). -/
def storedListD : Stored (List α) → List α
  | .wellFormed l => l
  | _ => []

/-- Sync-queue item id: `` `sync-${Date.now()}-${Math.random()...}` ``. -/
def mkSyncId (time : Nat) (rand : String) : String :=
  "sync-" ++ Nat.repr time ++ "-" ++ rand

/-- Offline-sale id: `` `offline-sale-${Date.now()}` `` (no random suffix). -/
def mkOfflineSaleId (time : Nat) : String :=
  "offline-sale-" ++ Nat.repr time

/-- Outcome of the single `fetch` of `checkConnectivity`: a response (with its
`ok` flag), a network error (fetch rejects), or the 5-second abort firing. -/
inductive HealthResult where
  | response (ok : Bool)
  | networkError
  | timeout
deriving DecidableEq

/-- The hard timeout, in milliseconds, passed to `setTimeout` before the
probe is aborted (source line 50). -/
def connectivityTimeoutMs : Nat := 5000

/-- `checkConnectivity`: returns `response.ok`; any rejection (network error
or abort on timeout) is caught and becomes `false`. -/
def checkConnectivity (r : HealthResult) : Bool :=
  match r with
  | .response ok => ok
  | .networkError => false
  | .timeout => false

/-- `cacheProducts`: writes `{products, cached_at: now}`; a write failure is
caught and logged (the function always resolves, state unchanged on
failure). -/
def cacheProducts (products : List Product) (now : String) (writeOk : Bool)
    (s : Storage) : Storage :=
  if writeOk then { s with productsCache := .wellFormed ⟨products, now⟩ } else s

/-- `getCachedProducts`: missing key gives `null`; a parse failure is caught
and gives `null`. -/
def getCachedProducts (s : Storage) : Option (List Product) :=
  match s.productsCache with
  | .wellFormed c => some c.products
  | _ => none

/-- `cacheOrders`: same shape as `cacheProducts`. -/
def cacheOrders (orders : List String) (now : String) (writeOk : Bool)
    (s : Storage) : Storage :=
  if writeOk then { s with ordersCache := .wellFormed ⟨orders, now⟩ } else s

/-- `getCachedOrders`: same shape as `getCachedProducts`. -/
def getCachedOrders (s : Storage) : Option (List String) :=
  match s.ordersCache with
  | .wellFormed c => some c.orders
  | _ => none

/-- `addToSyncQueue`: builds the item, reads and parses the queue (a corrupt
queue makes `JSON.parse` throw, which the catch block **rethrows**), appends,
and writes the full list (a write failure is likewise rethrown). -/
def addToSyncQueue (action : SyncAction) (payload : Payload) (time : Nat)
    (rand : String) (now : String) (writeOk : Bool) (s : Storage) :
    OpResult String :=
  let queueItem : SyncQueueItem :=
    ⟨mkSyncId time rand, action, payload, now, 0⟩
  match s.syncQueue with
  | .corrupt => .err s
  | st =>
    if writeOk then
      .ok queueItem.id
        { s with syncQueue := .wellFormed (storedListD st ++ [queueItem]) }
    else .err s

/-- `getSyncQueue`: missing key gives `[]`; a parse failure is caught and
gives `[]`. -/
def getSyncQueue (s : Storage) : List SyncQueueItem :=
  match s.syncQueue with
  | .wellFormed q => q
  | _ => []

/-- `removeFromSyncQueue`: reads, filters out the id, rewrites; every failure
(parse or write) is caught and swallowed. -/
def removeFromSyncQueue (id : String) (writeOk : Bool) (s : Storage) :
    Storage :=
  match s.syncQueue with
  | .corrupt => s
  | st =>
    if writeOk then
      { s with syncQueue := .wellFormed ((storedListD st).filter
          (fun item => item.id ≠ id)) }
    else s

/-- `saveOfflineSale`: builds the record (id from `Date.now()` only), appends
it to the offline-sales list, then enqueues a `create_sale` action through
`addToSyncQueue`; any failure (corrupt sales list, sales write, or the
enqueue's own throw) is rethrown, with no rollback of writes already made. -/
def saveOfflineSale (sale : SaleInput) (saleTime : Nat) (saleNow : String)
    (qTime : Nat) (qRand : String) (qNow : String) (salesOk qOk : Bool)
    (s : Storage) : OpResult OfflineSale :=
  let offlineSale : OfflineSale :=
    ⟨mkOfflineSaleId saleTime, sale.product_name, sale.quantity,
      sale.amount_ngn, sale.channel, sale.notes, saleNow, false⟩
  match s.offlineSales with
  | .corrupt => .err s
  | st =>
    if salesOk then
      let s1 : Storage :=
        { s with offlineSales := .wellFormed (storedListD st ++ [offlineSale]) }
      match addToSyncQueue .createSale
          ⟨some sale.product_name, some sale.quantity, some sale.amount_ngn,
            some sale.channel, sale.notes, none⟩ qTime qRand qNow qOk s1 with
      | .ok _ s2 => .ok offlineSale s2
      | .err s2 => .err s2
    else .err s

/-- `getOfflineSales`: missing key gives `[]`; a parse failure is caught and
gives `[]`. -/
def getOfflineSales (s : Storage) : List OfflineSale :=
  match s.offlineSales with
  | .wellFormed l => l
  | _ => []

/-- Outcome of one delivery `fetch` in `processSyncQueue`: success response,
non-success status, or a thrown network error. -/
inductive FetchOutcome where
  | success
  | httpError
  | networkError
deriving DecidableEq

/-- The action → endpoint mapping of `processSyncQueue` (an undefined
`payload.product_id` interpolates as the string `"undefined"` in JS). -/
def endpointFor (item : SyncQueueItem) : String :=
  match item.action with
  | .createSale => "/sales/manual"
  | .createOrder => "/orders"
  | .updateStock =>
      "/products/" ++ (item.payload.product_id.getD "undefined") ++ "/restock"
  | .createExpense => "/expenses"

/-- The per-item loop of `processSyncQueue` over the queue snapshot.  `resp`
gives the remote's outcome for an item's delivery request; `rmOk` gives the
storage-write outcome of the removal performed on success (that removal
swallows its own failures). -/
def processLoop (resp : SyncQueueItem → FetchOutcome)
    (rmOk : SyncQueueItem → Bool) :
    List SyncQueueItem → Nat → Nat → Storage → Nat × Nat × Storage
  | [], synced, failed, s => (synced, failed, s)
  | item :: rest, synced, failed, s =>
    match resp item with
    | .success =>
        processLoop resp rmOk rest (synced + 1) failed
          (removeFromSyncQueue item.id (rmOk item) s)
    | .httpError => processLoop resp rmOk rest synced (failed + 1) s
    | .networkError => processLoop resp rmOk rest synced (failed + 1) s

/-- The ids actually removed from storage by a `processLoop` pass: those of
items answered with success whose removal write also succeeded. -/
def removedIds (resp : SyncQueueItem → FetchOutcome)
    (rmOk : SyncQueueItem → Bool) : List SyncQueueItem → List String
  | [] => []
  | item :: rest =>
    match resp item with
    | .success =>
        if rmOk item then item.id :: removedIds resp rmOk rest
        else removedIds resp rmOk rest
    | _ => removedIds resp rmOk rest

/-- `processSyncQueue`: reads the queue snapshot once, runs the loop, then —
only when `synced > 0` — writes the last-sync timestamp (this write is *not*
inside any try/catch, so its failure rejects the whole call); finally returns
`{synced, failed, remaining: queue.length - synced}`. -/
def processSyncQueue (resp : SyncQueueItem → FetchOutcome)
    (rmOk : SyncQueueItem → Bool) (lsOk : Bool) (now : String) (s : Storage) :
    OpResult Summary :=
  let queue := getSyncQueue s
  let r := processLoop resp rmOk queue 0 0 s
  if 0 < r.1 then
    if lsOk then
      .ok ⟨r.1, r.2.1, queue.length - r.1⟩ { r.2.2 with lastSync := some now }
    else .err r.2.2
  else .ok ⟨r.1, r.2.1, queue.length - r.1⟩ r.2.2

/-- `getSyncStatus`: probes connectivity, reads last-sync, queue length and
the products cache.  The products-cache `JSON.parse` is **not** wrapped in a
try/catch, so a corrupt products cache makes the whole call reject. -/
def getSyncStatus (health : HealthResult) (s : Storage) : OpResult SyncStatus :=
  let isOnline := checkConnectivity health
  match s.productsCache with
  | .corrupt => .err s
  | .absent =>
      .ok ⟨isOnline, s.lastSync, (getSyncQueue s).length, 0⟩ s
  | .wellFormed c =>
      .ok ⟨isOnline, s.lastSync, (getSyncQueue s).length, c.products.length⟩ s

/-- `clearAllCache`: `multiRemove` of all five keys; failure is caught and
swallowed. -/
def clearAllCache (writeOk : Bool) (s : Storage) : Storage :=
  if writeOk then initStorage else s

/-- One queue-touching operation of the exposed interface, with its
environment inputs. -/
inductive Op where
  | enqueue (action : SyncAction) (payload : Payload) (time : Nat)
      (rand : String) (now : String) (writeOk : Bool)
  | removeItem (id : String) (writeOk : Bool)
  | processAll (resp : SyncQueueItem → FetchOutcome)
      (rmOk : SyncQueueItem → Bool) (lsOk : Bool) (now : String)

/-- The storage state after one operation (return values discarded; a thrown
operation still leaves its writes behind). -/
def applyOp : Op → Storage → Storage
  | .enqueue a p t r n w, s => (addToSyncQueue a p t r n w s).post
  | .removeItem id w, s => removeFromSyncQueue id w s
  | .processAll resp rmOk lsOk now, s =>
      (processSyncQueue resp rmOk lsOk now s).post

/-- The storage state after a sequence of operations. -/
def applyTrace (ops : List Op) (s : Storage) : Storage :=
  ops.foldl (fun st op => applyOp op st) s

/-- The ids of the queue items as `list()` returns them. -/
def queueIds (s : Storage) : List String :=
  (getSyncQueue s).map (fun item => item.id)

/-- A payload with no fields set. -/
def emptyPayload : Payload := ⟨none, none, none, none, none, none⟩

/-- Scenario 4 of the spec: an Ankara-Shirt sale input. -/
def demoInput : SaleInput := ⟨"Ankara Shirt", 2, 15000, .whatsapp, none⟩

/-- A concrete queue item used in witness scenarios. -/
def demoItemA : SyncQueueItem := ⟨"sync-1-aaa", .createSale, emptyPayload, "t1", 0⟩

/-- A second concrete queue item with a distinct id. -/
def demoItemB : SyncQueueItem := ⟨"sync-2-bbb", .createOrder, emptyPayload, "t2", 0⟩

/-- A storage state whose queue holds two items with distinct ids. -/
def demoQueueState : Storage :=
  { initStorage with syncQueue := .wellFormed [demoItemA, demoItemB] }

/-- A storage state whose products cache and queue keys hold corrupt JSON. -/
def corruptState : Storage :=
  { initStorage with productsCache := .corrupt, syncQueue := .corrupt }

/-- Two rapid enqueues that observe the same `Date.now()` reading and the same
`Math.random()` suffix. -/
def collidingTrace : List Op :=
  [ .enqueue .createSale emptyPayload 7 "abc123xyz" "t" true,
    .enqueue .createSale emptyPayload 7 "abc123xyz" "t" true ]

/-- A remote that answers every delivery request with a success response. -/
def allSuccess : SyncQueueItem → FetchOutcome := fun _ => .success

/-- A remote that answers every delivery request with a non-success status. -/
def allFail : SyncQueueItem → FetchOutcome := fun _ => .httpError

/-- A storage layer whose removal writes all succeed. -/
def allWritesOk : SyncQueueItem → Bool := fun _ => true

/-- The sale record built by `saveOfflineSale demoInput` at clock reading 5. -/
def c4saleA : OfflineSale :=
  ⟨mkOfflineSaleId 5, "Ankara Shirt", 2, 15000, .whatsapp, none, "s1", false⟩

/-- The sale record built by `saveOfflineSale demoInput` at clock reading 9. -/
def c4saleB : OfflineSale :=
  ⟨mkOfflineSaleId 9, "Ankara Shirt", 2, 15000, .whatsapp, none, "s2", false⟩

/-- Storage after the first demo `saveOfflineSale` call. -/
def c4stateA : Storage :=
  (saveOfflineSale demoInput 5 "s1" 6 "aaa" "q1" true true initStorage).post

/-- Storage after the second demo `saveOfflineSale` call. -/
def c4stateB : Storage :=
  (saveOfflineSale demoInput 9 "s2" 10 "bbb" "q2" true true c4stateA).post

/-- Specification of decimal rendering: the decimal digit characters of `n`,
most significant first. -/
def decDigits (n : Nat) : List Char :=
  if n < 10 then [Nat.digitChar n]
  else decDigits (n / 10) ++ [Nat.digitChar (n % 10)]
decreasing_by exact Nat.div_lt_self (by omega) (by omega)

/-!  ## Helper lemmas  -/

theorem digitChar_inj_lt :
    ∀ m < 10, ∀ n < 10, Nat.digitChar m = Nat.digitChar n → m = n := by
  decide

theorem decDigits_lt (n : Nat) (h : n < 10) :
    decDigits n = [Nat.digitChar n] := by
  rw [decDigits]
  simp [h]

theorem decDigits_ge (n : Nat) (h : ¬n < 10) :
    decDigits n = decDigits (n / 10) ++ [Nat.digitChar (n % 10)] := by
  conv_lhs => rw [decDigits]
  simp [h]

theorem decDigits_ne_nil (n : Nat) : decDigits n ≠ [] := by
  by_cases h : n < 10
  · rw [decDigits_lt n h]
    simp
  · rw [decDigits_ge n h]
    simp

theorem toDigitsCore_eq_decDigits :
    ∀ (f n : Nat) (acc : List Char), n < f →
      Nat.toDigitsCore 10 f n acc = decDigits n ++ acc := by
  intro f
  induction f with
  | zero => intro n acc h; omega
  | succ f ih =>
    intro n acc h
    rw [Nat.toDigitsCore]
    by_cases h10 : n < 10
    · have hdiv : n / 10 = 0 := Nat.div_eq_of_lt h10
      have hmod : n % 10 = n := Nat.mod_eq_of_lt h10
      simp [hdiv, hmod, decDigits_lt n h10]
    · have hdiv : ¬(n / 10 = 0) := by omega
      have hlt : n / 10 < f := by omega
      simp only [if_neg hdiv]
      rw [ih (n / 10) (Nat.digitChar (n % 10) :: acc) hlt,
        decDigits_ge n h10]
      simp

theorem decDigits_inj :
    ∀ m n : Nat, decDigits m = decDigits n → m = n := by
  intro m
  induction m using Nat.strong_induction_on with
  | _ m ih =>
    intro n h
    by_cases hm : m < 10 <;> by_cases hn : n < 10
    · rw [decDigits_lt m hm, decDigits_lt n hn] at h
      exact digitChar_inj_lt m hm n hn (List.cons.inj h).1
    · rw [decDigits_lt m hm, decDigits_ge n hn] at h
      have hnil : decDigits (n / 10) = [] := by
        have hlen := congrArg List.length h
        simp only [List.length_singleton, List.length_append] at hlen
        exact List.length_eq_zero.mp (by omega)
      exact absurd hnil (decDigits_ne_nil _)
    · rw [decDigits_ge m hm, decDigits_lt n hn] at h
      have hnil : decDigits (m / 10) = [] := by
        have hlen := congrArg List.length h
        simp only [List.length_singleton, List.length_append] at hlen
        exact List.length_eq_zero.mp (by omega)
      exact absurd hnil (decDigits_ne_nil _)
    · rw [decDigits_ge m hm, decDigits_ge n hn] at h
      have h' := congrArg List.reverse h
      simp only [List.reverse_append, List.reverse_cons, List.reverse_nil,
        List.nil_append, List.singleton_append] at h'
      have hhead := (List.cons.inj h').1
      have htail : decDigits (m / 10) = decDigits (n / 10) :=
        List.reverse_inj.mp (List.cons.inj h').2
      have hmod : m % 10 = n % 10 :=
        digitChar_inj_lt (m % 10) (Nat.mod_lt _ (by omega)) (n % 10)
          (Nat.mod_lt _ (by omega)) hhead
      have hdivlt : m / 10 < m := Nat.div_lt_self (by omega) (by omega)
      have hdiv : m / 10 = n / 10 := ih (m / 10) hdivlt (n / 10) htail
      omega

theorem natRepr_inj (m n : Nat) (h : Nat.repr m = Nat.repr n) : m = n := by
  apply decDigits_inj
  have hm : Nat.toDigits 10 m = decDigits m := by
    rw [Nat.toDigits, toDigitsCore_eq_decDigits (m + 1) m [] (by omega)]
    simp
  have hn : Nat.toDigits 10 n = decDigits n := by
    rw [Nat.toDigits, toDigitsCore_eq_decDigits (n + 1) n [] (by omega)]
    simp
  have hd := congrArg String.data h
  rw [Nat.repr, Nat.repr, List.asString, List.asString] at hd
  rwa [hm, hn] at hd

theorem mkOfflineSaleId_inj (t1 t2 : Nat)
    (h : mkOfflineSaleId t1 = mkOfflineSaleId t2) : t1 = t2 := by
  apply natRepr_inj
  have hd := congrArg String.data h
  simp only [mkOfflineSaleId, String.data_append] at hd
  exact String.ext (List.append_cancel_left hd)

theorem getSyncQueue_removeFromSyncQueue (id : String) (w : Bool)
    (s : Storage) :
    getSyncQueue (removeFromSyncQueue id w s)
      = if w then (getSyncQueue s).filter (fun item => item.id ≠ id)
        else getSyncQueue s := by
  cases s with
  | mk pc oc q ls os =>
    cases q <;> cases w <;>
      simp [removeFromSyncQueue, getSyncQueue, storedListD]

theorem processLoop_post_queue (resp : SyncQueueItem → FetchOutcome)
    (rmOk : SyncQueueItem → Bool) (items : List SyncQueueItem)
    (sy fa : Nat) (s : Storage) :
    getSyncQueue (processLoop resp rmOk items sy fa s).2.2
      = (getSyncQueue s).filter
          (fun x => x.id ∉ removedIds resp rmOk items) := by
  induction items generalizing sy fa s with
  | nil => simp [processLoop, removedIds]
  | cons item rest ih =>
    cases hr : resp item with
    | success =>
      cases hrm : rmOk item with
      | true =>
        rw [processLoop]
        simp only [hr]
        rw [ih, getSyncQueue_removeFromSyncQueue, hrm, if_pos rfl,
          List.filter_filter]
        refine List.filter_congr (fun a _ => ?_)
        simp [removedIds, hr, hrm, not_or, Bool.and_comm]
      | false =>
        rw [processLoop]
        simp only [hr]
        rw [ih, getSyncQueue_removeFromSyncQueue, hrm]
        rw [if_neg Bool.false_ne_true]
        refine List.filter_congr (fun a _ => ?_)
        simp [removedIds, hr, hrm]
    | httpError =>
      rw [processLoop]
      simp only [hr]
      rw [ih]
      refine List.filter_congr (fun a _ => ?_)
      simp [removedIds, hr]
    | networkError =>
      rw [processLoop]
      simp only [hr]
      rw [ih]
      refine List.filter_congr (fun a _ => ?_)
      simp [removedIds, hr]

theorem mem_removedIds (resp : SyncQueueItem → FetchOutcome)
    (rmOk : SyncQueueItem → Bool) (items : List SyncQueueItem) (a : String)
    (h : a ∈ removedIds resp rmOk items) :
    ∃ x, x ∈ items ∧ x.id = a ∧ resp x = .success := by
  induction items with
  | nil => simp [removedIds] at h
  | cons item rest ih =>
    rw [removedIds] at h
    cases hr : resp item with
    | success =>
      rw [hr] at h
      by_cases hrm : rmOk item = true
      · rw [if_pos hrm] at h
        rcases List.mem_cons.mp h with h1 | h2
        · exact ⟨item, List.mem_cons_self _ _, h1.symm, hr⟩
        · rcases ih h2 with ⟨x, hx, hid, hs⟩
          exact ⟨x, List.mem_cons_of_mem _ hx, hid, hs⟩
      · rw [if_neg hrm] at h
        rcases ih h with ⟨x, hx, hid, hs⟩
        exact ⟨x, List.mem_cons_of_mem _ hx, hid, hs⟩
    | httpError =>
      rw [hr] at h
      rcases ih h with ⟨x, hx, hid, hs⟩
      exact ⟨x, List.mem_cons_of_mem _ hx, hid, hs⟩
    | networkError =>
      rw [hr] at h
      rcases ih h with ⟨x, hx, hid, hs⟩
      exact ⟨x, List.mem_cons_of_mem _ hx, hid, hs⟩

theorem removedIds_all_success (resp : SyncQueueItem → FetchOutcome)
    (rmOk : SyncQueueItem → Bool) (items : List SyncQueueItem)
    (hresp : ∀ x ∈ items, resp x = .success)
    (hrm : ∀ x ∈ items, rmOk x = true) :
    removedIds resp rmOk items = items.map (fun x => x.id) := by
  induction items with
  | nil => simp [removedIds]
  | cons item rest ih =>
    rw [removedIds, hresp item (List.mem_cons_self _ _)]
    rw [if_pos (hrm item (List.mem_cons_self _ _))]
    rw [ih (fun x hx => hresp x (List.mem_cons_of_mem _ hx))
      (fun x hx => hrm x (List.mem_cons_of_mem _ hx))]
    simp

theorem processLoop_synced_all (resp : SyncQueueItem → FetchOutcome)
    (rmOk : SyncQueueItem → Bool) (items : List SyncQueueItem)
    (sy fa : Nat) (s : Storage)
    (hresp : ∀ x ∈ items, resp x = .success) :
    (processLoop resp rmOk items sy fa s).1 = sy + items.length := by
  induction items generalizing sy fa s with
  | nil => simp [processLoop]
  | cons item rest ih =>
    rw [processLoop, hresp item (List.mem_cons_self _ _)]
    rw [ih _ _ _ (fun x hx => hresp x (List.mem_cons_of_mem _ hx))]
    simp only [List.length_cons]
    omega

theorem addToSyncQueue_ok (a : SyncAction) (p : Payload) (t : Nat)
    (r n : String) (s : Storage) (hq : s.syncQueue ≠ .corrupt) :
    addToSyncQueue a p t r n true s
      = .ok (mkSyncId t r)
          { s with syncQueue := .wellFormed (getSyncQueue s
              ++ [⟨mkSyncId t r, a, p, n, 0⟩]) } := by
  cases hsq : s.syncQueue with
  | corrupt => exact absurd hsq hq
  | absent => simp [addToSyncQueue, getSyncQueue, hsq, storedListD]
  | wellFormed q => simp [addToSyncQueue, getSyncQueue, hsq, storedListD]

theorem getSyncQueue_setLastSync (s : Storage) (v : Option String) :
    getSyncQueue { s with lastSync := v } = getSyncQueue s := rfl

theorem addToSyncQueue_writeFail (a : SyncAction) (p : Payload) (t : Nat)
    (r n : String) (s : Storage) :
    addToSyncQueue a p t r n false s = .err s := by
  cases hsq : s.syncQueue <;> simp [addToSyncQueue, hsq]

theorem getSyncQueue_setQueue (s : Storage) (q : List SyncQueueItem) :
    getSyncQueue { s with syncQueue := .wellFormed q } = q := rfl

theorem getOfflineSales_setSyncQueue (s : Storage)
    (v : Stored (List SyncQueueItem)) :
    getOfflineSales { s with syncQueue := v } = getOfflineSales s := rfl

theorem processSyncQueue_ok (resp : SyncQueueItem → FetchOutcome)
    (rmOk : SyncQueueItem → Bool) (now : String) (s : Storage) :
    processSyncQueue resp rmOk true now s
      = .ok ⟨(processLoop resp rmOk (getSyncQueue s) 0 0 s).1,
             (processLoop resp rmOk (getSyncQueue s) 0 0 s).2.1,
             (getSyncQueue s).length
               - (processLoop resp rmOk (getSyncQueue s) 0 0 s).1⟩
          (if 0 < (processLoop resp rmOk (getSyncQueue s) 0 0 s).1 then
            { (processLoop resp rmOk (getSyncQueue s) 0 0 s).2.2 with
                lastSync := some now }
          else (processLoop resp rmOk (getSyncQueue s) 0 0 s).2.2) := by
  rw [processSyncQueue]
  by_cases hpos : 0 < (processLoop resp rmOk (getSyncQueue s) 0 0 s).1 <;>
    simp [hpos]

theorem getSyncQueue_processSyncQueue_post
    (resp : SyncQueueItem → FetchOutcome) (rmOk : SyncQueueItem → Bool)
    (lsOk : Bool) (now : String) (s : Storage) :
    getSyncQueue (processSyncQueue resp rmOk lsOk now s).post
      = (getSyncQueue s).filter
          (fun x => x.id ∉ removedIds resp rmOk (getSyncQueue s)) := by
  rw [← processLoop_post_queue resp rmOk (getSyncQueue s) 0 0 s]
  rw [processSyncQueue]
  by_cases hpos : 0 < (processLoop resp rmOk (getSyncQueue s) 0 0 s).1 <;>
    cases lsOk <;> simp [hpos, OpResult.post, getSyncQueue_setLastSync]

theorem mem_post_of_fail (resp : SyncQueueItem → FetchOutcome)
    (rmOk : SyncQueueItem → Bool) (lsOk : Bool) (now : String) (s : Storage)
    (hnd : (queueIds s).Nodup) (x : SyncQueueItem)
    (hx : x ∈ getSyncQueue s) (hfail : resp x ≠ .success) :
    x ∈ getSyncQueue (processSyncQueue resp rmOk lsOk now s).post := by
  rw [getSyncQueue_processSyncQueue_post]
  refine List.mem_filter.mpr ⟨hx, ?_⟩
  simp only [decide_eq_true_eq]
  intro hmem
  rcases mem_removedIds resp rmOk (getSyncQueue s) x.id hmem with
    ⟨y, hy, hid, hs⟩
  have hyx : y = x :=
    List.inj_on_of_nodup_map hnd hy hx hid
  rw [hyx] at hs
  exact hfail hs

theorem saveOfflineSale_ok (input : SaleInput) (saleT : Nat) (saleN : String)
    (qT : Nat) (qR qN : String) (s : Storage)
    (hsales : s.offlineSales ≠ .corrupt) (hq : s.syncQueue ≠ .corrupt) :
    saveOfflineSale input saleT saleN qT qR qN true true s
      = .ok ⟨mkOfflineSaleId saleT, input.product_name, input.quantity,
              input.amount_ngn, input.channel, input.notes, saleN, false⟩
          { s with
              offlineSales := .wellFormed (getOfflineSales s
                ++ [⟨mkOfflineSaleId saleT, input.product_name, input.quantity,
                      input.amount_ngn, input.channel, input.notes, saleN,
                      false⟩]),
              syncQueue := .wellFormed (getSyncQueue s
                ++ [⟨mkSyncId qT qR, .createSale,
                      ⟨some input.product_name, some input.quantity,
                        some input.amount_ngn, some input.channel,
                        input.notes, none⟩, qN, 0⟩]) } := by
  cases hos : s.offlineSales with
  | corrupt => exact absurd hos hsales
  | absent =>
    have hadd := addToSyncQueue_ok .createSale
      ⟨some input.product_name, some input.quantity, some input.amount_ngn,
        some input.channel, input.notes, none⟩ qT qR qN
      { s with
          offlineSales := Stored.wellFormed
            (storedListD (Stored.absent : Stored (List OfflineSale))
              ++ [⟨mkOfflineSaleId saleT, input.product_name, input.quantity,
                    input.amount_ngn, input.channel, input.notes, saleN,
                    false⟩]) } hq
    simp only [saveOfflineSale, hos, if_pos rfl]
    rw [hadd]
    simp [getOfflineSales, getSyncQueue, hos, storedListD]
  | wellFormed l =>
    have hadd := addToSyncQueue_ok .createSale
      ⟨some input.product_name, some input.quantity, some input.amount_ngn,
        some input.channel, input.notes, none⟩ qT qR qN
      { s with
          offlineSales := Stored.wellFormed
            (storedListD (Stored.wellFormed l)
              ++ [⟨mkOfflineSaleId saleT, input.product_name, input.quantity,
                    input.amount_ngn, input.channel, input.notes, saleN,
                    false⟩]) } hq
    simp only [saveOfflineSale, hos, if_pos rfl]
    rw [hadd]
    simp [getOfflineSales, getSyncQueue, hos, storedListD]

theorem saveOfflineSale_id (input : SaleInput) (saleT : Nat) (saleN : String)
    (qT : Nat) (qR qN : String) (w1 w2 : Bool) (s : Storage)
    (sale : OfflineSale) (s1 : Storage)
    (h : saveOfflineSale input saleT saleN qT qR qN w1 w2 s = .ok sale s1) :
    sale.id = mkOfflineSaleId saleT := by
  rw [saveOfflineSale] at h
  cases hos : s.offlineSales with
  | corrupt =>
    rw [hos] at h
    exact absurd h (by simp)
  | absent =>
    rw [hos] at h
    cases w1 with
    | false => exact absurd h (by simp)
    | true =>
      simp only [if_pos rfl] at h
      cases hadd : addToSyncQueue .createSale
          ⟨some input.product_name, some input.quantity,
            some input.amount_ngn, some input.channel, input.notes, none⟩
          qT qR qN w2
          { s with offlineSales := .wellFormed (storedListD .absent
              ++ [⟨mkOfflineSaleId saleT, input.product_name, input.quantity,
                    input.amount_ngn, input.channel, input.notes, saleN,
                    false⟩]) } with
      | ok id s2 =>
        rw [hadd] at h
        cases h
        rfl
      | err s2 =>
        rw [hadd] at h
        exact absurd h (by simp)
  | wellFormed l =>
    rw [hos] at h
    cases w1 with
    | false => exact absurd h (by simp)
    | true =>
      simp only [if_pos rfl] at h
      cases hadd : addToSyncQueue .createSale
          ⟨some input.product_name, some input.quantity,
            some input.amount_ngn, some input.channel, input.notes, none⟩
          qT qR qN w2
          { s with offlineSales := .wellFormed (storedListD (.wellFormed l)
              ++ [⟨mkOfflineSaleId saleT, input.product_name, input.quantity,
                    input.amount_ngn, input.channel, input.notes, saleN,
                    false⟩]) } with
      | ok id s2 =>
        rw [hadd] at h
        cases h
        rfl
      | err s2 =>
        rw [hadd] at h
        exact absurd h (by simp)

/-!  ## Claim theorems  -/

/-- C10: `checkConnectivity` issues a single request to the health path,
aborted after 5000 ms, and returns `false` on timeout, network error, or
non-success status, and `true` otherwise; a remote that never responds within
the timeout bound yields `false`. -/
theorem c10_connectivity_fail_closed :
    connectivityTimeoutMs = 5000
    ∧ checkConnectivity .timeout = false
    ∧ checkConnectivity .networkError = false
    ∧ (∀ ok, checkConnectivity (.response ok) = ok)
    ∧ (∀ r, checkConnectivity r = true ↔ r = .response true) := by
  refine ⟨rfl, rfl, rfl, fun ok => rfl, fun r => ?_⟩
  cases r with
  | response ok => cases ok <;> simp [checkConnectivity]
  | networkError => simp [checkConnectivity]
  | timeout => simp [checkConnectivity]

/-- C6: enqueuing three items in order appends them to the queue in that same
order, so `list()` returns them in insertion (FIFO) order; reads do not
mutate state, so intervening reads cannot reorder them. -/
theorem c6_fifo_order_preserved (s : Storage) (a1 a2 a3 : SyncAction)
    (p1 p2 p3 : Payload) (t1 t2 t3 : Nat) (r1 r2 r3 n1 n2 n3 : String)
    (hq : s.syncQueue ≠ .corrupt) :
    ∃ id1 s1 id2 s2 id3 s3,
      addToSyncQueue a1 p1 t1 r1 n1 true s = .ok id1 s1
      ∧ addToSyncQueue a2 p2 t2 r2 n2 true s1 = .ok id2 s2
      ∧ addToSyncQueue a3 p3 t3 r3 n3 true s2 = .ok id3 s3
      ∧ getSyncQueue s3
          = getSyncQueue s
            ++ [⟨mkSyncId t1 r1, a1, p1, n1, 0⟩,
                ⟨mkSyncId t2 r2, a2, p2, n2, 0⟩,
                ⟨mkSyncId t3 r3, a3, p3, n3, 0⟩] := by
  refine ⟨_, _, _, _, _, _,
    addToSyncQueue_ok a1 p1 t1 r1 n1 s hq,
    addToSyncQueue_ok a2 p2 t2 r2 n2 _ (by simp),
    addToSyncQueue_ok a3 p3 t3 r3 n3 _ (by simp), ?_⟩
  simp [getSyncQueue, List.append_assoc]

/-- Witness for C6 at a concrete input: three enqueues from empty storage. -/
theorem c6_fifo_order_preserved_witness :
    initStorage.syncQueue ≠ .corrupt
    ∧ ∃ id1 s1 id2 s2 id3 s3,
        addToSyncQueue .createSale emptyPayload 1 "aaa" "u1" true initStorage
            = .ok id1 s1
        ∧ addToSyncQueue .createOrder emptyPayload 2 "bbb" "u2" true s1
            = .ok id2 s2
        ∧ addToSyncQueue .createExpense emptyPayload 3 "ccc" "u3" true s2
            = .ok id3 s3
        ∧ getSyncQueue s3
            = getSyncQueue initStorage
              ++ [⟨mkSyncId 1 "aaa", .createSale, emptyPayload, "u1", 0⟩,
                  ⟨mkSyncId 2 "bbb", .createOrder, emptyPayload, "u2", 0⟩,
                  ⟨mkSyncId 3 "ccc", .createExpense, emptyPayload, "u3", 0⟩] :=
  ⟨by decide,
    c6_fifo_order_preserved initStorage _ _ _ _ _ _ _ _ _ _ _ _ _ _ _
      (by decide)⟩

/-- C5: when the generated id is fresh (the collision-avoidance property the
id generator is designed for), `list()` right after `enqueue` contains
exactly one item with the returned id, carrying the given action and
`retries = 0`; after `remove(id)` no item with that id remains; removing an
id not present leaves the queue unchanged, and `remove` is idempotent. -/
theorem c5_enqueue_remove_round_trip (s : Storage) (a : SyncAction)
    (p : Payload) (t : Nat) (r n : String)
    (hq : s.syncQueue ≠ .corrupt)
    (hfresh : mkSyncId t r ∉ queueIds s) :
    (∃ s1, addToSyncQueue a p t r n true s = .ok (mkSyncId t r) s1
      ∧ (getSyncQueue s1).filter (fun x => x.id = mkSyncId t r)
          = [⟨mkSyncId t r, a, p, n, 0⟩]
      ∧ ∀ x ∈ getSyncQueue (removeFromSyncQueue (mkSyncId t r) true s1),
          x.id ≠ mkSyncId t r)
    ∧ (∀ id, id ∉ queueIds s →
        getSyncQueue (removeFromSyncQueue id true s) = getSyncQueue s)
    ∧ (∀ id w, removeFromSyncQueue id w (removeFromSyncQueue id w s)
        = removeFromSyncQueue id w s) := by
  refine ⟨⟨_, addToSyncQueue_ok a p t r n s hq, ?_, ?_⟩, ?_, ?_⟩
  · have h0 : (getSyncQueue s).filter (fun x => x.id = mkSyncId t r) = [] := by
      refine List.filter_eq_nil_iff.mpr ?_
      intro x hx
      simp only [decide_eq_true_eq]
      intro heq
      exact hfresh (List.mem_map.mpr ⟨x, hx, heq⟩)
    rw [getSyncQueue_setQueue, List.filter_append, h0]
    simp
  · intro x hx
    rw [getSyncQueue_removeFromSyncQueue, if_pos rfl] at hx
    have hm := List.mem_filter.mp hx
    simpa using hm.2
  · intro id hid
    rw [getSyncQueue_removeFromSyncQueue, if_pos rfl]
    refine List.filter_eq_self.mpr ?_
    intro x hx
    simp only [ne_eq, decide_eq_true_eq]
    intro heq
    exact hid (List.mem_map.mpr ⟨x, hx, heq⟩)
  · intro id w
    cases hsq : s.syncQueue with
    | corrupt => simp [removeFromSyncQueue, hsq]
    | absent =>
      cases w <;> simp [removeFromSyncQueue, hsq, storedListD]
    | wellFormed q =>
      cases w <;>
        simp [removeFromSyncQueue, hsq, storedListD, List.filter_filter,
          Bool.and_self]

/-- Witness for C5 at a concrete input: a fresh enqueue into a two-item
queue. -/
theorem c5_enqueue_remove_round_trip_witness :
    demoQueueState.syncQueue ≠ .corrupt
    ∧ mkSyncId 3 "ccc" ∉ queueIds demoQueueState
    ∧ ((∃ s1, addToSyncQueue .updateStock emptyPayload 3 "ccc" "u" true
            demoQueueState = .ok (mkSyncId 3 "ccc") s1
        ∧ (getSyncQueue s1).filter (fun x => x.id = mkSyncId 3 "ccc")
            = [⟨mkSyncId 3 "ccc", .updateStock, emptyPayload, "u", 0⟩]
        ∧ ∀ x ∈ getSyncQueue
              (removeFromSyncQueue (mkSyncId 3 "ccc") true s1),
            x.id ≠ mkSyncId 3 "ccc")
      ∧ (∀ id, id ∉ queueIds demoQueueState →
          getSyncQueue (removeFromSyncQueue id true demoQueueState)
            = getSyncQueue demoQueueState)
      ∧ (∀ id w,
          removeFromSyncQueue id w
              (removeFromSyncQueue id w demoQueueState)
            = removeFromSyncQueue id w demoQueueState)) :=
  ⟨by decide, by decide,
    c5_enqueue_remove_round_trip demoQueueState .updateStock emptyPayload 3
      "ccc" "u" (by decide) (by decide)⟩

/-- C1: for a queue whose item ids are pairwise distinct (the documented
queue invariant), `process_queue` returns `remaining = queue length at start
− synced`; if every item receives a success response (and the removal and
last-sync writes succeed) then `remaining = 0` and `list()` is empty
afterwards; and every item the remote answers with a failure is still present
in `list()` after the call. -/
theorem c1_process_queue_summary (s : Storage)
    (resp : SyncQueueItem → FetchOutcome) (rmOk : SyncQueueItem → Bool)
    (now : String) (hnd : (queueIds s).Nodup) :
    (∀ sum s1, processSyncQueue resp rmOk true now s = .ok sum s1 →
        sum.remaining = (getSyncQueue s).length - sum.synced)
    ∧ ((∀ x ∈ getSyncQueue s, resp x = .success) → (∀ x, rmOk x = true) →
        ∃ sum s1, processSyncQueue resp rmOk true now s = .ok sum s1
          ∧ sum.synced = (getSyncQueue s).length ∧ sum.remaining = 0
          ∧ getSyncQueue s1 = [])
    ∧ (∀ x ∈ getSyncQueue s, resp x ≠ .success →
        x ∈ getSyncQueue (processSyncQueue resp rmOk true now s).post) := by
  refine ⟨?_, ?_, ?_⟩
  · intro sum s1 hok
    rw [processSyncQueue_ok] at hok
    injection hok with h1 h2
    rw [← h1]
  · intro hresp hrm
    have hsy := processLoop_synced_all resp rmOk (getSyncQueue s) 0 0 s hresp
    refine ⟨_, _, processSyncQueue_ok resp rmOk now s, ?_, ?_, ?_⟩
    · simpa using hsy
    · simp [hsy]
    · have hrem := removedIds_all_success resp rmOk (getSyncQueue s) hresp
        (fun x _ => hrm x)
      have hpq := processLoop_post_queue resp rmOk (getSyncQueue s) 0 0 s
      have hnil : (getSyncQueue s).filter
          (fun x => x.id ∉ removedIds resp rmOk (getSyncQueue s)) = [] := by
        rw [hrem]
        refine List.filter_eq_nil_iff.mpr ?_
        intro x hx
        simp only [decide_eq_true_eq, not_not]
        exact List.mem_map.mpr ⟨x, hx, rfl⟩
      by_cases hpos : 0 < (processLoop resp rmOk (getSyncQueue s) 0 0 s).1
      · rw [if_pos hpos, getSyncQueue_setLastSync, hpq]
        exact hnil
      · rw [if_neg hpos, hpq]
        exact hnil
  · intro x hx hfail
    exact mem_post_of_fail resp rmOk true now s hnd x hx hfail

/-- Witness for C1 at a concrete input: an all-success pass over a two-item
queue with distinct ids. -/
theorem c1_process_queue_summary_witness :
    (queueIds demoQueueState).Nodup
    ∧ ((∀ sum s1,
          processSyncQueue allSuccess allWritesOk true "w" demoQueueState
              = .ok sum s1 →
          sum.remaining = (getSyncQueue demoQueueState).length - sum.synced)
      ∧ ((∀ x ∈ getSyncQueue demoQueueState, allSuccess x = .success) →
          (∀ x, allWritesOk x = true) →
          ∃ sum s1,
            processSyncQueue allSuccess allWritesOk true "w" demoQueueState
                = .ok sum s1
            ∧ sum.synced = (getSyncQueue demoQueueState).length
            ∧ sum.remaining = 0
            ∧ getSyncQueue s1 = [])
      ∧ (∀ x ∈ getSyncQueue demoQueueState, allSuccess x ≠ .success →
          x ∈ getSyncQueue
              (processSyncQueue allSuccess allWritesOk true "w"
                demoQueueState).post)) :=
  ⟨by decide,
    c1_process_queue_summary demoQueueState allSuccess allWritesOk "w"
      (by decide)⟩

/-- C7: under the documented id-uniqueness invariant, every item whose
delivery attempt fails in a `process_queue` pass is left in the queue as the
very same record — every field, in particular `retries`, unchanged. -/
theorem c7_failed_item_left_unchanged (s : Storage)
    (resp : SyncQueueItem → FetchOutcome) (rmOk : SyncQueueItem → Bool)
    (lsOk : Bool) (now : String) (hnd : (queueIds s).Nodup)
    (x : SyncQueueItem) (hx : x ∈ getSyncQueue s)
    (hfail : resp x ≠ .success) :
    x ∈ getSyncQueue (processSyncQueue resp rmOk lsOk now s).post :=
  mem_post_of_fail resp rmOk lsOk now s hnd x hx hfail

/-- Witness for C7 at a concrete input: an all-failure pass retains the first
demo item unchanged. -/
theorem c7_failed_item_left_unchanged_witness :
    (queueIds demoQueueState).Nodup
    ∧ demoItemA ∈ getSyncQueue demoQueueState
    ∧ allFail demoItemA ≠ .success
    ∧ demoItemA ∈ getSyncQueue
        (processSyncQueue allFail allWritesOk true "w" demoQueueState).post :=
  ⟨by decide, by decide, by decide,
    c7_failed_item_left_unchanged demoQueueState allFail allWritesOk true "w"
      (by decide) demoItemA (by decide) (by decide)⟩

/-- C8 counterexample: the queue-item id is built from `Date.now()` plus a
`Math.random()` suffix; two enqueues that observe the same clock reading and
the same suffix — which nothing in the code rules out — produce a reachable
queue state with duplicate ids. -/
theorem c8_counterexample_duplicate_ids_reachable :
    ¬ (queueIds (applyTrace collidingTrace initStorage)).Nodup := by
  decide

/-- C8 amended: provided each enqueue's generated id is not already present
in the queue (which the clock-plus-random-suffix generator makes likely but
does not guarantee), every enqueue, remove, and process operation preserves
pairwise-distinct queue ids, so the invariant holds along any such run. -/
theorem c8_amended_nodup_preserved (s : Storage) (op : Op)
    (hnd : (queueIds s).Nodup)
    (hfresh : ∀ a p t r n w, op = .enqueue a p t r n w →
        mkSyncId t r ∉ queueIds s) :
    (queueIds (applyOp op s)).Nodup := by
  cases op with
  | enqueue a p t r n w =>
    have hf := hfresh a p t r n w rfl
    cases w with
    | false =>
      cases hsq : s.syncQueue with
      | corrupt =>
        simpa [applyOp, addToSyncQueue, hsq, OpResult.post] using hnd
      | absent =>
        simpa [applyOp, addToSyncQueue, hsq, OpResult.post] using hnd
      | wellFormed q =>
        simpa [applyOp, addToSyncQueue, hsq, OpResult.post] using hnd
    | true =>
      cases hsq : s.syncQueue with
      | corrupt =>
        simpa [applyOp, addToSyncQueue, hsq, OpResult.post] using hnd
      | absent =>
        simp [applyOp, addToSyncQueue, hsq, OpResult.post, queueIds,
          getSyncQueue, storedListD]
      | wellFormed q =>
        have hids : queueIds (applyOp (.enqueue a p t r n true) s)
            = (q.map (fun i => i.id)) ++ [mkSyncId t r] := by
          simp [applyOp, addToSyncQueue, hsq, OpResult.post, queueIds,
            getSyncQueue, storedListD]
        rw [hids, List.nodup_append]
        refine ⟨?_, List.nodup_singleton _, ?_⟩
        · simpa [queueIds, getSyncQueue, hsq] using hnd
        · intro x hx hx1
          rw [List.mem_singleton] at hx1
          rw [hx1] at hx
          exact hf (by simpa [queueIds, getSyncQueue, hsq] using hx)
  | removeItem id w =>
    have hsub : List.Sublist (getSyncQueue (removeFromSyncQueue id w s))
        (getSyncQueue s) := by
      rw [getSyncQueue_removeFromSyncQueue]
      cases w with
      | false =>
        rw [if_neg Bool.false_ne_true]
      | true =>
        rw [if_pos rfl]
        exact List.filter_sublist _
    show (List.map (fun i => i.id)
        (getSyncQueue (removeFromSyncQueue id w s))).Nodup
    exact List.Nodup.sublist (hsub.map (fun i => i.id)) hnd
  | processAll resp rmOk lsOk now =>
    have hsub : List.Sublist
        (getSyncQueue (processSyncQueue resp rmOk lsOk now s).post)
        (getSyncQueue s) := by
      rw [getSyncQueue_processSyncQueue_post]
      exact List.filter_sublist _
    show (List.map (fun i => i.id)
        (getSyncQueue (processSyncQueue resp rmOk lsOk now s).post)).Nodup
    exact List.Nodup.sublist (hsub.map (fun i => i.id)) hnd

/-- Witness for the amended C8 at a concrete input: a fresh enqueue into the
two-item demo queue keeps the ids pairwise distinct. -/
theorem c8_amended_nodup_preserved_witness :
    (queueIds demoQueueState).Nodup
    ∧ mkSyncId 3 "ccc" ∉ queueIds demoQueueState
    ∧ (queueIds (applyOp
        (.enqueue .createSale emptyPayload 3 "ccc" "t" true)
        demoQueueState)).Nodup :=
  ⟨by decide, by decide,
    c8_amended_nodup_preserved demoQueueState
      (.enqueue .createSale emptyPayload 3 "ccc" "t" true) (by decide)
      (fun a p t r n w h => by
        cases h
        decide)⟩

/-- C9: `save_offline_sale` builds an `OfflineSale` with a generated id and
`synced = false` carrying the input's fields, appends exactly one record to
the offline-sales list, and enqueues exactly one `create_sale` action whose
payload carries the same product name, quantity, and amount. -/
theorem c9_save_offline_sale_effects (s : Storage) (input : SaleInput)
    (saleT qT : Nat) (saleN qR qN : String)
    (hsales : s.offlineSales ≠ .corrupt) (hq : s.syncQueue ≠ .corrupt) :
    ∃ sale s1,
      saveOfflineSale input saleT saleN qT qR qN true true s = .ok sale s1
      ∧ sale.id = mkOfflineSaleId saleT
      ∧ sale.synced = false
      ∧ sale.product_name = input.product_name
      ∧ sale.quantity = input.quantity
      ∧ sale.amount_ngn = input.amount_ngn
      ∧ getOfflineSales s1 = getOfflineSales s ++ [sale]
      ∧ (getOfflineSales s1).length = (getOfflineSales s).length + 1
      ∧ ∃ qi, getSyncQueue s1 = getSyncQueue s ++ [qi]
          ∧ (getSyncQueue s1).length = (getSyncQueue s).length + 1
          ∧ qi.action = .createSale
          ∧ qi.payload.product_name = some input.product_name
          ∧ qi.payload.quantity = some input.quantity
          ∧ qi.payload.amount_ngn = some input.amount_ngn := by
  refine ⟨_, _, saveOfflineSale_ok input saleT saleN qT qR qN s hsales hq,
    rfl, rfl, rfl, rfl, rfl, rfl, ?_, _, rfl, ?_, rfl, rfl, rfl, rfl⟩
  · simp [getOfflineSales]
  · simp [getSyncQueue]

/-- Witness for C9 at a concrete input: saving the demo sale into empty
storage. -/
theorem c9_save_offline_sale_effects_witness :
    initStorage.offlineSales ≠ .corrupt
    ∧ initStorage.syncQueue ≠ .corrupt
    ∧ ∃ sale s1,
        saveOfflineSale demoInput 5 "s1" 6 "aaa" "q1" true true initStorage
            = .ok sale s1
        ∧ sale.id = mkOfflineSaleId 5
        ∧ sale.synced = false
        ∧ sale.product_name = demoInput.product_name
        ∧ sale.quantity = demoInput.quantity
        ∧ sale.amount_ngn = demoInput.amount_ngn
        ∧ getOfflineSales s1 = getOfflineSales initStorage ++ [sale]
        ∧ (getOfflineSales s1).length
            = (getOfflineSales initStorage).length + 1
        ∧ ∃ qi, getSyncQueue s1 = getSyncQueue initStorage ++ [qi]
            ∧ (getSyncQueue s1).length
                = (getSyncQueue initStorage).length + 1
            ∧ qi.action = .createSale
            ∧ qi.payload.product_name = some demoInput.product_name
            ∧ qi.payload.quantity = some demoInput.quantity
            ∧ qi.payload.amount_ngn = some demoInput.amount_ngn :=
  ⟨by decide, by decide,
    c9_save_offline_sale_effects initStorage demoInput 5 6 "s1" "aaa" "q1"
      (by decide) (by decide)⟩

/-- C2 counterexample: with a corrupt products cache, `getSyncStatus` throws
the `JSON.parse` failure to its caller (the parse sits outside any
try/catch), and with a corrupt queue, the queue read inside `addToSyncQueue`
rethrows — so corruption of a persisted value *is* propagated as an error by
two of the listed readers. -/
theorem c2_counterexample_corruption_propagates :
    getSyncStatus (.response true) corruptState = .err corruptState
    ∧ addToSyncQueue .createSale emptyPayload 0 "a" "t" true corruptState
        = .err corruptState :=
  ⟨rfl, rfl⟩

/-- C2 amended: `get_cached` (products and orders), `list`, and
`get_offline_sales` treat corrupt or missing persisted JSON as an absent
value; but `get_status` propagates a products-cache parse failure as an
error, and the queue read inside `enqueue` rethrows a queue parse failure. -/
theorem c2_amended_read_error_policy (s : Storage) (a : SyncAction)
    (p : Payload) (t : Nat) (r n : String) (health : HealthResult)
    (hcp : s.productsCache = .corrupt ∨ s.productsCache = .absent)
    (hco : s.ordersCache = .corrupt ∨ s.ordersCache = .absent)
    (hcq : s.syncQueue = .corrupt ∨ s.syncQueue = .absent)
    (hcs : s.offlineSales = .corrupt ∨ s.offlineSales = .absent) :
    getCachedProducts s = none
    ∧ getCachedOrders s = none
    ∧ getSyncQueue s = []
    ∧ getOfflineSales s = []
    ∧ (s.productsCache = .corrupt → getSyncStatus health s = .err s)
    ∧ (s.syncQueue = .corrupt →
        ∀ w, addToSyncQueue a p t r n w s = .err s) := by
  refine ⟨?_, ?_, ?_, ?_, ?_, ?_⟩
  · rcases hcp with h | h <;> simp [getCachedProducts, h]
  · rcases hco with h | h <;> simp [getCachedOrders, h]
  · rcases hcq with h | h <;> simp [getSyncQueue, h]
  · rcases hcs with h | h <;> simp [getOfflineSales, h]
  · intro h
    simp [getSyncStatus, h]
  · intro h w
    simp [addToSyncQueue, h]

/-- Witness for the amended C2 at a concrete input: a state whose products
cache and queue are corrupt and whose other keys are missing. -/
theorem c2_amended_read_error_policy_witness :
    (corruptState.productsCache = .corrupt
        ∨ corruptState.productsCache = .absent)
    ∧ (corruptState.ordersCache = .corrupt
        ∨ corruptState.ordersCache = .absent)
    ∧ (corruptState.syncQueue = .corrupt ∨ corruptState.syncQueue = .absent)
    ∧ (corruptState.offlineSales = .corrupt
        ∨ corruptState.offlineSales = .absent)
    ∧ (getCachedProducts corruptState = none
      ∧ getCachedOrders corruptState = none
      ∧ getSyncQueue corruptState = []
      ∧ getOfflineSales corruptState = []
      ∧ (corruptState.productsCache = .corrupt →
          getSyncStatus (.response true) corruptState = .err corruptState)
      ∧ (corruptState.syncQueue = .corrupt →
          ∀ w, addToSyncQueue .createSale emptyPayload 0 "a" "t" w
              corruptState = .err corruptState)) :=
  ⟨by decide, by decide, by decide, by decide,
    c2_amended_read_error_policy corruptState .createSale emptyPayload 0 "a"
      "t" (.response true) (by decide) (by decide) (by decide) (by decide)⟩

/-- C3 counterexample: a storage-write failure inside `addToSyncQueue` is
logged and then **rethrown** to the caller, not swallowed. -/
theorem c3_counterexample_enqueue_write_failure_throws :
    addToSyncQueue .createSale emptyPayload 0 "a" "t" false initStorage
      = .err initStorage := rfl

/-- C3 amended: `cache`, `remove`, and `clear_all` swallow persistence-write
failures and leave state unchanged; but `enqueue` and `save_offline_sale`
rethrow them.  No operation rolls back a write already made before the
failure: when the enqueue write inside `save_offline_sale` fails, the
offline-sale record appended beforehand is retained. -/
theorem c3_amended_write_error_policy (s : Storage)
    (products : List Product) (orders : List String) (now : String)
    (a : SyncAction) (p : Payload) (t : Nat) (r n : String) (id : String)
    (input : SaleInput) (saleT qT : Nat) (saleN qR qN : String)
    (hsales : s.offlineSales ≠ .corrupt) :
    cacheProducts products now false s = s
    ∧ cacheOrders orders now false s = s
    ∧ removeFromSyncQueue id false s = s
    ∧ clearAllCache false s = s
    ∧ addToSyncQueue a p t r n false s = .err s
    ∧ saveOfflineSale input saleT saleN qT qR qN true false s
        = .err { s with offlineSales := .wellFormed (getOfflineSales s
            ++ [⟨mkOfflineSaleId saleT, input.product_name, input.quantity,
                  input.amount_ngn, input.channel, input.notes, saleN,
                  false⟩]) } := by
  refine ⟨rfl, rfl, ?_, rfl, addToSyncQueue_writeFail a p t r n s, ?_⟩
  · cases hsq : s.syncQueue <;> simp [removeFromSyncQueue, hsq]
  · cases hos : s.offlineSales with
    | corrupt => exact absurd hos hsales
    | absent =>
      simp only [saveOfflineSale, hos, if_pos rfl, addToSyncQueue_writeFail]
      simp [getOfflineSales, hos, storedListD]
    | wellFormed l =>
      simp only [saveOfflineSale, hos, if_pos rfl, addToSyncQueue_writeFail]
      simp [getOfflineSales, hos, storedListD]

/-- Witness for the amended C3 at a concrete input: write failures against
empty storage. -/
theorem c3_amended_write_error_policy_witness :
    initStorage.offlineSales ≠ .corrupt
    ∧ (cacheProducts [] "n" false initStorage = initStorage
      ∧ cacheOrders [] "n" false initStorage = initStorage
      ∧ removeFromSyncQueue "x" false initStorage = initStorage
      ∧ clearAllCache false initStorage = initStorage
      ∧ addToSyncQueue .createSale emptyPayload 0 "a" "t" false initStorage
          = .err initStorage
      ∧ saveOfflineSale demoInput 5 "s1" 6 "aaa" "q1" true false initStorage
          = .err { initStorage with
              offlineSales := .wellFormed (getOfflineSales initStorage
                ++ [⟨mkOfflineSaleId 5, demoInput.product_name,
                      demoInput.quantity, demoInput.amount_ngn,
                      demoInput.channel, demoInput.notes, "s1", false⟩]) }) :=
  ⟨by decide,
    c3_amended_write_error_policy initStorage [] [] "n" .createSale
      emptyPayload 0 "a" "t" "x" demoInput 5 6 "s1" "aaa" "q1" (by decide)⟩

/-- C4 counterexample: the offline-sale id is `` `offline-sale-${Date.now()}` ``
with no random suffix, so two `saveOfflineSale` calls that observe the same
millisecond clock reading construct records with the *same* id. -/
theorem c4_counterexample_same_millisecond_ids_collide :
    (saveOfflineSale demoInput 5 "s1" 6 "aaa" "q1" true true
        initStorage).val?.map (fun sale => sale.id) = some "offline-sale-5"
    ∧ (saveOfflineSale demoInput 5 "s2" 8 "bbb" "q2" true true
        c4stateA).val?.map (fun sale => sale.id) = some "offline-sale-5" := by
  exact ⟨rfl, rfl⟩

/-- C4 amended: two `saveOfflineSale` calls that observe *distinct*
`Date.now()` readings construct records with different ids; within one
millisecond the ids collide (see the counterexample). -/
theorem c4_amended_distinct_times_distinct_ids
    (t1 t2 : Nat) (i1 i2 : SaleInput) (sn1 sn2 : String) (qt1 qt2 : Nat)
    (qr1 qr2 qn1 qn2 : String) (w1 w2 w3 w4 : Bool) (s1 s2 : Storage)
    (sale1 sale2 : OfflineSale) (s1' s2' : Storage)
    (h1 : saveOfflineSale i1 t1 sn1 qt1 qr1 qn1 w1 w2 s1 = .ok sale1 s1')
    (h2 : saveOfflineSale i2 t2 sn2 qt2 qr2 qn2 w3 w4 s2 = .ok sale2 s2')
    (hne : t1 ≠ t2) :
    sale1.id ≠ sale2.id := by
  rw [saveOfflineSale_id i1 t1 sn1 qt1 qr1 qn1 w1 w2 s1 sale1 s1' h1,
    saveOfflineSale_id i2 t2 sn2 qt2 qr2 qn2 w3 w4 s2 sale2 s2' h2]
  intro h
  exact hne (mkOfflineSaleId_inj t1 t2 h)

/-- Witness for the amended C4 at a concrete input: two saves at clock
readings 5 and 9 get distinct ids. -/
theorem c4_amended_distinct_times_distinct_ids_witness :
    saveOfflineSale demoInput 5 "s1" 6 "aaa" "q1" true true initStorage
        = .ok c4saleA c4stateA
    ∧ saveOfflineSale demoInput 9 "s2" 10 "bbb" "q2" true true c4stateA
        = .ok c4saleB c4stateB
    ∧ (5 : Nat) ≠ 9
    ∧ c4saleA.id ≠ c4saleB.id := by
  have h1 : saveOfflineSale demoInput 5 "s1" 6 "aaa" "q1" true true
      initStorage = .ok c4saleA c4stateA := by decide
  have h2 : saveOfflineSale demoInput 9 "s2" 10 "bbb" "q2" true true c4stateA
      = .ok c4saleB c4stateB := by decide
  exact ⟨h1, h2, by decide,
    c4_amended_distinct_times_distinct_ids 5 9 demoInput demoInput "s1" "s2"
      6 10 "aaa" "bbb" "q1" "q2" true true true true initStorage c4stateA
      c4saleA c4saleB c4stateA c4stateB h1 h2 (by decide)⟩

end Kofa
